import Mathlib

/-!
Verification of the merchant-management backend's derived-analytics and
domain logic. The JavaScript services (menu.service, inventory.service,
stats.service and the shared data.store helpers) are shallowly embedded:
JavaScript numbers are modelled as rationals, `toFixed(2)` as rounding to
two decimals, JavaScript division (which yields Infinity or NaN on a zero
denominator) as an `Option`-valued division that is `none` exactly on a
zero denominator, the falsy-coalescing operator `x || d` as `jsOrQ` and
`jsOrS`, and Date values as their epoch-millisecond rationals. State held
in the JSON collections is a `Store` record threaded explicitly.
-/

/-- Rounding to two decimals, the model of JavaScript `toFixed(2)`
followed by `parseFloat`. -/
def round2 (q : ℚ) : ℚ := (⌊q * 100 + 1 / 2⌋ : ℚ) / 100

/-- JavaScript division: `none` models the non-finite results (Infinity,
-Infinity, NaN) produced on a zero denominator. -/
def jsDiv (a b : ℚ) : Option ℚ := if b = 0 then none else some (a / b)

/-- JavaScript `x || d` on numbers: an absent value and the falsy number 0
both fall back to the default. -/
def jsOrQ (x : Option ℚ) (d : ℚ) : ℚ :=
  match x with
  | some v => if v = 0 then d else v
  | none => d

/-- JavaScript `x || d` on strings: an absent value and the falsy empty
string both fall back to the default. -/
def jsOrS (x : Option String) (d : String) : String :=
  match x with
  | some v => if v = "" then d else v
  | none => d

/-- JavaScript `x || null` for a nullable string field: a missing key, a
null value and the falsy empty string all produce null. -/
def jsOrNullS (x : Option (Option String)) : Option String :=
  match x with
  | some (some v) => if v = "" then none else some v
  | _ => none

/-- One step of the do-while loop of `dataStore.generateId`, with explicit
fuel standing in for the loop's termination. -/
def generateIdAux (pre : String) (ids : List String) : Nat → Nat → String
  | counter, 0 => pre ++ toString counter
  | counter, fuel + 1 =>
    let candidate := pre ++ toString counter
    if ids.contains candidate then generateIdAux pre ids (counter + 1) fuel
    else candidate

/-- The model of `dataStore.generateId`: the smallest counter starting at 1
whose `prefix + counter` id is unused. One more round of fuel than there
are existing ids always suffices for the scan. -/
def generateId (pre : String) (ids : List String) : String :=
  generateIdAux pre ids 1 (ids.length + 1)

/-- Category records as persisted in the categories collection. -/
structure Category where
  id : String
  name : String
  description : String
  sortOrder : ℚ
  isActive : Bool
  createdAt : String
  updatedAt : String
deriving DecidableEq

/-- Dish records as persisted in the dishes collection. -/
structure Dish where
  id : String
  categoryId : String
  name : String
  description : String
  price : ℚ
  status : String
  stock : ℚ
  imageUrl : String
  ingredients : List String
  allergens : List String
  preparationTime : ℚ
  calories : ℚ
  isSpicy : Bool
  isVegetarian : Bool
  createdAt : String
  updatedAt : String
deriving DecidableEq

/-- Inventory records as persisted in the inventory collection. The three
adjustment fields are absent until the first `adjustStock` writes them. -/
structure InventoryRecord where
  dishId : String
  stock : ℚ
  alertThreshold : ℚ
  lastUpdated : String
  supplier : String
  cost : ℚ
  expiryDate : Option String
  adjustmentReason : Option String
  lastAdjustment : Option ℚ
  lastAdjustmentDate : Option String
deriving DecidableEq

/-- The three JSON collections the services read and write wholesale. -/
structure Store where
  categories : List Category
  dishes : List Dish
  inventory : List InventoryRecord
deriving DecidableEq

/-- Typed error taxonomy: the services throw messages that the controllers
map to validation (400), not-found (404) and conflict (409) responses. -/
inductive ServiceError where
  | validation (msg : String)
  | notFound (msg : String)
  | conflict (msg : String)
deriving DecidableEq

/-- The model of `dataStore.findById` on the categories collection. -/
def findCategory (categories : List Category) (categoryId : String) : Option Category :=
  categories.find? (fun c => c.id == categoryId)

/-- The model of `dataStore.findById` on the dishes collection. -/
def findDish (dishes : List Dish) (dishId : String) : Option Dish :=
  dishes.find? (fun d => d.id == dishId)

/-- The model of `inventory.find(item => item.dishId === dishId)`. -/
def findInventory (inventory : List InventoryRecord) (dishId : String) : Option InventoryRecord :=
  inventory.find? (fun item => item.dishId == dishId)

/-- Partial update payload accepted by `updateCategory`; a `none` field is
an absent key in the JavaScript patch object. -/
structure CategoryPatch where
  name : Option String
  description : Option String
  sortOrder : Option ℚ
  isActive : Option Bool
deriving DecidableEq

/-- The patch used by `deleteCategory`, carrying only `isActive: false`. -/
def deactivatePatch : CategoryPatch :=
  { name := none, description := none, sortOrder := none, isActive := some false }

/-- The spread-merge performed by `updateCategory`: patch keys override the
stored record, the id is forced back to the requested one, and the update
timestamp is refreshed. -/
def applyCategoryPatch (c : Category) (patch : CategoryPatch) (categoryId now : String) : Category :=
  { c with
    name := patch.name.getD c.name
    description := patch.description.getD c.description
    sortOrder := patch.sortOrder.getD c.sortOrder
    isActive := patch.isActive.getD c.isActive
    id := categoryId
    updatedAt := now }

/-- Replacement of the first category matching the id, the model of the
`findIndexById` / index-assignment pair in `updateCategory`. -/
def updateCategoryList (categoryId now : String) (patch : CategoryPatch) :
    List Category → Option (List Category × Category)
  | [] => none
  | c :: cs =>
    if c.id == categoryId then
      let c' := applyCategoryPatch c patch categoryId now
      some (c' :: cs, c')
    else
      (updateCategoryList categoryId now patch cs).map (fun p => (c :: p.1, p.2))

/-- The model of `menuService.updateCategory`: `none` is the null returned
when the id does not resolve. -/
def updateCategory (s : Store) (now categoryId : String) (patch : CategoryPatch) :
    Option (Store × Category) :=
  (updateCategoryList categoryId now patch s.categories).map
    (fun p => ({ s with categories := p.1 }, p.2))

/-- The model of `menuService.deleteCategory`: a conflict when any dish
still references the category, otherwise a soft delete through
`updateCategory`, returning `false` when the category id does not
resolve. -/
def deleteCategory (s : Store) (now categoryId : String) :
    Except ServiceError (Store × Bool) :=
  let categoryDishes := s.dishes.filter (fun dish => dish.categoryId == categoryId)
  if categoryDishes.length > 0 then
    .error (.conflict "Cannot delete category with existing dishes")
  else
    match updateCategory s now categoryId deactivatePatch with
    | some (s', _) => .ok (s', true)
    | none => .ok (s, false)

/-- The model of `menuService.createInventoryEntry`: an early return when a
record for the dish id already exists, otherwise a fresh record with the
default threshold 5. Its try/catch swallows failures, so it never throws. -/
def createInventoryEntry (s : Store) (now dishId : String) (initialStock : ℚ) : Store :=
  match findInventory s.inventory dishId with
  | some _ => s
  | none =>
    { s with inventory := s.inventory ++
        [{ dishId := dishId, stock := initialStock, alertThreshold := 5,
           lastUpdated := now, supplier := "", cost := 0, expiryDate := none,
           adjustmentReason := none, lastAdjustment := none, lastAdjustmentDate := none }] }

/-- Input payload of `createDish`; `none` fields are absent keys, and the
required string fields model an absent value as the empty string, matching
the undefined/null/empty-string test of `validateRequiredFields`. -/
structure DishData where
  name : String
  categoryId : String
  description : Option String
  price : Option ℚ
  status : Option String
  stock : Option ℚ
  imageUrl : Option String
  ingredients : Option (List String)
  allergens : Option (List String)
  preparationTime : Option ℚ
  calories : Option ℚ
  isSpicy : Option Bool
  isVegetarian : Option Bool
deriving DecidableEq

/-- The model of `menuService.createDish`: required-field validation, the
category-existence check, id generation, defaulted dish construction, and
the secondary `createInventoryEntry` side effect. -/
def createDish (s : Store) (now : String) (data : DishData) :
    Except ServiceError (Store × Dish) :=
  if data.name = "" ∨ data.categoryId = "" ∨ data.price = none then
    .error (.validation "Missing required fields")
  else
    match findCategory s.categories data.categoryId with
    | none => .error (.validation "Category not found")
    | some _ =>
      let newId := generateId "dish_" (s.dishes.map (fun d => d.id))
      let newDish : Dish :=
        { id := newId
          categoryId := data.categoryId
          name := data.name
          description := jsOrS data.description ""
          price := data.price.getD 0
          status := jsOrS data.status "on"
          stock := jsOrQ data.stock 0
          imageUrl := jsOrS data.imageUrl ""
          ingredients := data.ingredients.getD []
          allergens := data.allergens.getD []
          preparationTime := jsOrQ data.preparationTime 0
          calories := jsOrQ data.calories 0
          isSpicy := data.isSpicy.getD false
          isVegetarian := data.isVegetarian.getD false
          createdAt := now
          updatedAt := now }
      let s1 := { s with dishes := s.dishes ++ [newDish] }
      let s2 := createInventoryEntry s1 now newId (jsOrQ data.stock 0)
      .ok (s2, newDish)

/-- Extra inventory fields accepted by `updateDishStock`; a `none` field is
an absent key in the JavaScript `additionalData` object. The payload never
carries a `stock` key. -/
structure StockExtra where
  alertThreshold : Option ℚ
  supplier : Option String
  cost : Option ℚ
  expiryDate : Option (Option String)
  adjustmentReason : Option String
  lastAdjustment : Option ℚ
  lastAdjustmentDate : Option String
deriving DecidableEq

/-- The empty `additionalData` object. -/
def noExtra : StockExtra :=
  { alertThreshold := none, supplier := none, cost := none, expiryDate := none,
    adjustmentReason := none, lastAdjustment := none, lastAdjustmentDate := none }

/-- Present-key-wins merge for an optional field, the model of the object
spread `{...existing, ...additionalData}` on keys that are optional in the
stored record too. -/
def overwriteOpt {α : Type} (new : Option α) (old : Option α) : Option α :=
  match new with
  | some v => some v
  | none => old

/-- The spread `{...existing, stock, lastUpdated, ...additionalData}` of
`updateDishStock` on an existing record: keys present in the extra payload
override the stored ones; `stock` and `dishId` are untouched by it. -/
def applyStockExtra (r : InventoryRecord) (extra : StockExtra) : InventoryRecord :=
  { r with
    alertThreshold := extra.alertThreshold.getD r.alertThreshold
    supplier := extra.supplier.getD r.supplier
    cost := extra.cost.getD r.cost
    expiryDate := extra.expiryDate.getD r.expiryDate
    adjustmentReason := overwriteOpt extra.adjustmentReason r.adjustmentReason
    lastAdjustment := overwriteOpt extra.lastAdjustment r.lastAdjustment
    lastAdjustmentDate := overwriteOpt extra.lastAdjustmentDate r.lastAdjustmentDate }

/-- Replacement of the first inventory record matching the dish id, the
model of the in-place `inventory[inventoryIndex] = updatedInventoryItem`
assignment. -/
def replaceFirstInventory (dishId : String) (r' : InventoryRecord) :
    List InventoryRecord → List InventoryRecord
  | [] => []
  | r :: rs =>
    if r.dishId == dishId then r' :: rs
    else r :: replaceFirstInventory dishId r' rs

/-- The model of `inventoryService.updateDishStockField`: the write-through
of the new stock to the first matching dish record, a no-op when the dish
id does not resolve. -/
def updateDishStockField (now dishId : String) (newStock : ℚ) : List Dish → List Dish
  | [] => []
  | d :: ds =>
    if d.id == dishId then { d with stock := newStock, updatedAt := now } :: ds
    else d :: updateDishStockField now dishId newStock ds

/-- The model of `inventoryService.updateDishStock`: creates a defaulted
record when none exists for the dish id, otherwise rewrites the stock of
the existing record and merges the extra payload; either way the new stock
is written through to the dishes collection. -/
def updateDishStock (s : Store) (now dishId : String) (newStock : ℚ) (extra : StockExtra) :
    Store × InventoryRecord :=
  match findInventory s.inventory dishId with
  | none =>
    let newItem : InventoryRecord :=
      { dishId := dishId
        stock := newStock
        alertThreshold := jsOrQ extra.alertThreshold 5
        lastUpdated := now
        supplier := jsOrS extra.supplier ""
        cost := jsOrQ extra.cost 0
        expiryDate := jsOrNullS extra.expiryDate
        adjustmentReason := none
        lastAdjustment := none
        lastAdjustmentDate := none }
    ({ s with inventory := s.inventory ++ [newItem]
              dishes := updateDishStockField now dishId newStock s.dishes },
     newItem)
  | some r =>
    let updatedItem := applyStockExtra { r with stock := newStock, lastUpdated := now } extra
    ({ s with inventory := replaceFirstInventory dishId updatedItem s.inventory
              dishes := updateDishStockField now dishId newStock s.dishes },
     updatedItem)

/-- The model of `inventoryService.getInventoryByDishId`. -/
def getInventoryByDishId (s : Store) (dishId : String) : Option InventoryRecord :=
  findInventory s.inventory dishId

/-- The model of `inventoryService.adjustStock`: requires an existing
record, clamps the adjusted stock at zero, and routes the write through
`updateDishStock` with the adjustment audit fields as extra payload. -/
def adjustStock (s : Store) (now dishId : String) (adjustment : ℚ) (reason : String) :
    Except ServiceError (Store × InventoryRecord) :=
  match getInventoryByDishId s dishId with
  | none => .error (.notFound "Inventory not found for dish")
  | some currentInventory =>
    let newStock := max 0 (currentInventory.stock + adjustment)
    let result := updateDishStock s now dishId newStock
      { alertThreshold := none, supplier := none, cost := none, expiryDate := none,
        adjustmentReason := some reason, lastAdjustment := some adjustment,
        lastAdjustmentDate := some now }
    .ok result

/-- An inventory item joined with its dish's display fields, the shape
returned by `getLowStockDishes` and `getOutOfStockDishes`. -/
structure EnrichedInventory where
  item : InventoryRecord
  dishName : String
  dishPrice : ℚ
  dishStatus : String
  categoryId : Option String
deriving DecidableEq

/-- The dish join of `getLowStockDishes`, with the Unknown Dish
placeholders for a dangling dish id. -/
def enrichInventoryItem (dishes : List Dish) (item : InventoryRecord) : EnrichedInventory :=
  match findDish dishes item.dishId with
  | some d => { item := item, dishName := d.name, dishPrice := d.price,
                dishStatus := d.status, categoryId := some d.categoryId }
  | none => { item := item, dishName := "Unknown Dish", dishPrice := 0,
              dishStatus := "unknown", categoryId := none }

/-- Ordering on enriched items used by the final ascending-by-stock sort. -/
def stockLe (a b : EnrichedInventory) : Prop := a.item.stock ≤ b.item.stock

instance : DecidableRel stockLe :=
  fun a b => inferInstanceAs (Decidable (a.item.stock ≤ b.item.stock))

instance : IsTotal EnrichedInventory stockLe := ⟨fun a b => le_total a.item.stock b.item.stock⟩

instance : IsTrans EnrichedInventory stockLe := ⟨fun _ _ _ h h' => le_trans h h'⟩

/-- The model of `inventoryService.getLowStockDishes`: the threshold of
each item is `customThreshold || item.alertThreshold` (JavaScript falsy
coalescing), the kept items are joined with dish data and sorted ascending
by stock. -/
def getLowStockDishes (s : Store) (customThreshold : Option ℚ) : List EnrichedInventory :=
  let lowStockInventory := s.inventory.filter
    (fun item => decide (item.stock ≤ jsOrQ customThreshold item.alertThreshold))
  let lowStockDishes := lowStockInventory.map (enrichInventoryItem s.dishes)
  List.insertionSort stockLe lowStockDishes

/-- Outcome of `synchronizeInventory`: the rewritten collection plus the
created and updated counters of the returned summary. -/
structure SyncResult where
  inventory : List InventoryRecord
  created : Nat
  updated : Nat
deriving DecidableEq

/-- One iteration of the dish loop in `synchronizeInventory`: a missing
record is created seeded from the dish stock, a record with differing
stock is overwritten from the dish, and a matching record is untouched. -/
def syncStep (now : String) (acc : SyncResult) (dish : Dish) : SyncResult :=
  match findInventory acc.inventory dish.id with
  | none =>
    let newItem : InventoryRecord :=
      { dishId := dish.id, stock := jsOrQ (some dish.stock) 0, alertThreshold := 5,
        lastUpdated := now, supplier := "", cost := 0, expiryDate := none,
        adjustmentReason := none, lastAdjustment := none, lastAdjustmentDate := none }
    { inventory := acc.inventory ++ [newItem], created := acc.created + 1,
      updated := acc.updated }
  | some r =>
    if r.stock ≠ dish.stock then
      { inventory := replaceFirstInventory dish.id
          { r with stock := dish.stock, lastUpdated := now } acc.inventory,
        created := acc.created, updated := acc.updated + 1 }
    else acc

/-- The model of `inventoryService.synchronizeInventory`: the dish loop
folded over the live inventory list. -/
def synchronizeInventory (now : String) (dishes : List Dish)
    (inventory : List InventoryRecord) : SyncResult :=
  dishes.foldl (syncStep now) { inventory := inventory, created := 0, updated := 0 }

/-- Entry of the `topDishes` list of the order-statistics snapshot. -/
structure TopDish where
  dishId : String
  orders : ℚ
  revenue : ℚ
deriving DecidableEq

/-- Entry of the `peakHours` list of the order-statistics snapshot. -/
structure PeakHour where
  hour : ℚ
  orders : ℚ
deriving DecidableEq

/-- The order-statistics snapshot read from `orders.stats`. -/
structure OrderStats where
  todayRevenue : ℚ
  yesterdayRevenue : ℚ
  todayOrders : ℚ
  yesterdayOrders : ℚ
  averageOrderValue : ℚ
  topDishes : List TopDish
  peakHours : List PeakHour
deriving DecidableEq

/-- A top dish joined with its dish record, with the Unknown Dish
placeholders for a dangling dish id. -/
structure EnrichedTopDish where
  raw : TopDish
  dishName : String
  dishPrice : ℚ
  categoryId : Option String
deriving DecidableEq

/-- The dish join over `topDishes` in `getOrderStatistics`. -/
def enrichTopDish (dishes : List Dish) (t : TopDish) : EnrichedTopDish :=
  match findDish dishes t.dishId with
  | some d => { raw := t, dishName := d.name, dishPrice := d.price,
                categoryId := some d.categoryId }
  | none => { raw := t, dishName := "Unknown Dish", dishPrice := 0, categoryId := none }

/-- A peak-hour bucket with its derived revenue. -/
structure PeakHourRevenue where
  hour : ℚ
  orders : ℚ
  revenue : ℚ
deriving DecidableEq

/-- The model of `statsService.calculatePeakHourRevenue`. -/
def calculatePeakHourRevenue (peakHours : List PeakHour) (avgOrderValue : ℚ) :
    List PeakHourRevenue :=
  peakHours.map (fun h =>
    { hour := h.hour, orders := h.orders, revenue := round2 (h.orders * avgOrderValue) })

/-- The model of `statsService.calculateConversionRate`: the mock rate over
an assumed three visitors per order, 0 when there are no orders today. -/
def calculateConversionRate (os : OrderStats) : Option ℚ :=
  let estimatedVisitors := os.todayOrders * 3
  if os.todayOrders > 0 then
    (jsDiv os.todayOrders estimatedVisitors).map (fun q => round2 (q * 100))
  else some 0

/-- The growth-rate formula used twice in `getOrderStatistics`: the change
against yesterday as a percentage when yesterday is positive, 0 otherwise. -/
def computeGrowthRate (today yesterday : ℚ) : Option ℚ :=
  if yesterday > 0 then
    (jsDiv (today - yesterday) yesterday).map (fun q => round2 (q * 100))
  else some 0

/-- The `metrics` block assembled by `getOrderStatistics`. -/
structure OrderMetrics where
  revenueGrowthRate : Option ℚ
  orderGrowthRate : Option ℚ
  averageOrderValue : ℚ
  conversionRate : Option ℚ
  peakHourRevenue : List PeakHourRevenue
deriving DecidableEq

/-- The result of `getOrderStatistics`: the enriched top dishes plus the
derived metrics block. -/
structure OrderStatisticsResult where
  topDishes : List EnrichedTopDish
  metrics : OrderMetrics
deriving DecidableEq

/-- The model of `statsService.getOrderStatistics` on the snapshot and the
dishes collection. -/
def getOrderStatistics (dishes : List Dish) (os : OrderStats) : OrderStatisticsResult :=
  { topDishes := os.topDishes.map (enrichTopDish dishes)
    metrics :=
      { revenueGrowthRate := computeGrowthRate os.todayRevenue os.yesterdayRevenue
        orderGrowthRate := computeGrowthRate os.todayOrders os.yesterdayOrders
        averageOrderValue := os.averageOrderValue
        conversionRate := calculateConversionRate os
        peakHourRevenue := calculatePeakHourRevenue os.peakHours os.averageOrderValue } }

/-- A promotion entry of the promotions-statistics snapshot. Date strings
are modelled by their epoch-millisecond values. -/
structure Promotion where
  id : String
  applicableDishes : List String
  totalOrders : ℚ
  totalRevenue : ℚ
  discountGiven : ℚ
  conversionRate : ℚ
  startDate : ℚ
  endDate : ℚ
deriving DecidableEq

/-- The `overallStats` aggregate of the promotions snapshot. -/
structure OverallStats where
  totalPromotionalOrders : ℚ
  totalPromotionalRevenue : ℚ
  totalDiscountGiven : ℚ
  averageConversionRate : ℚ
deriving DecidableEq

/-- The promotions-statistics snapshot read from `promotions.stats`. -/
structure PromotionStats where
  activePromotions : List Promotion
  completedPromotions : List Promotion
  overallStats : OverallStats
deriving DecidableEq

/-- The promotion lookup of `getPromotionAnalytics`: the active list is
searched first, then the completed list, with the active flag recording
which one matched. -/
def findPromotion (ps : PromotionStats) (promotionId : String) : Option (Promotion × Bool) :=
  match ps.activePromotions.find? (fun p => p.id == promotionId) with
  | some p => some (p, true)
  | none =>
    match ps.completedPromotions.find? (fun p => p.id == promotionId) with
    | some p => some (p, false)
    | none => none

/-- An applicable dish resolved against the dishes collection. -/
structure ApplicableDish where
  id : String
  name : String
  price : ℚ
  categoryId : String
deriving DecidableEq

/-- The model of `calculateOrdersPerDay`: total orders spread over the
ceiling of the promotion's day span, 0 for an empty or negative span. -/
def calculateOrdersPerDay (p : Promotion) : ℚ :=
  let daysDiff : ℤ := ⌈(p.endDate - p.startDate) / (1000 * 60 * 60 * 24)⌉
  if daysDiff > 0 then round2 (p.totalOrders / (daysDiff : ℚ)) else 0

/-- The model of `calculateRevenuePerDay`. -/
def calculateRevenuePerDay (p : Promotion) : ℚ :=
  let daysDiff : ℤ := ⌈(p.endDate - p.startDate) / (1000 * 60 * 60 * 24)⌉
  if daysDiff > 0 then round2 (p.totalRevenue / (daysDiff : ℚ)) else 0

/-- The model of `calculateEffectivenessScore`: conversion, ROI and volume
points capped at 100. When the discount is zero and revenue exceeds it,
the JavaScript ROI term is Infinity and the cap yields exactly 100. -/
def calculateEffectivenessScore (p : Promotion) : ℚ :=
  let conversionScore := p.conversionRate * 100
  let volumeScore := min (p.totalOrders / 10) 20
  if p.totalRevenue > p.discountGiven then
    if p.discountGiven = 0 then 100
    else round2 (min (conversionScore +
      (p.totalRevenue - p.discountGiven) / p.discountGiven * 10 + volumeScore) 100)
  else round2 (min (conversionScore + volumeScore) 100)

/-- The analytics block returned by `getPromotionAnalytics` for a found
promotion. -/
structure PromotionAnalytics where
  promotion : Promotion
  isActive : Bool
  applicableDishes : List ApplicableDish
  roi : Option ℚ
  averageOrderValue : Option ℚ
  discountPercentage : Option ℚ
  ordersPerDay : ℚ
  revenuePerDay : ℚ
  effectivenessScore : ℚ
deriving DecidableEq

/-- Assembly of the analytics block of `getPromotionAnalytics`: the dish
join dropping unresolved ids, and the ROI, order-value and discount
percentages with their original guards. -/
def mkPromotionAnalytics (dishes : List Dish) (p : Promotion) (isActive : Bool) :
    PromotionAnalytics :=
  { promotion := p
    isActive := isActive
    applicableDishes := p.applicableDishes.filterMap (fun dishId =>
      (findDish dishes dishId).map (fun d =>
        { id := d.id, name := d.name, price := d.price, categoryId := d.categoryId }))
    roi :=
      if p.totalRevenue > 0 then
        (jsDiv (p.totalRevenue - p.discountGiven) p.discountGiven).map
          (fun q => round2 (q * 100))
      else some 0
    averageOrderValue :=
      if p.totalOrders > 0 then (jsDiv p.totalRevenue p.totalOrders).map round2
      else some 0
    discountPercentage :=
      if p.totalRevenue > 0 then
        (jsDiv p.discountGiven (p.totalRevenue + p.discountGiven)).map
          (fun q => round2 (q * 100))
      else some 0
    ordersPerDay := calculateOrdersPerDay p
    revenuePerDay := calculateRevenuePerDay p
    effectivenessScore := calculateEffectivenessScore p }

/-- The model of `statsService.getPromotionAnalytics`: `none` is the null
returned when the promotion id resolves in neither list. -/
def getPromotionAnalytics (ps : PromotionStats) (dishes : List Dish)
    (promotionId : String) : Option PromotionAnalytics :=
  (findPromotion ps promotionId).map (fun pr => mkPromotionAnalytics dishes pr.1 pr.2)

/-- A per-dish review aggregate from the reviews snapshot. -/
structure DishReview where
  dishId : String
  averageRating : ℚ
  totalReviews : ℚ
deriving DecidableEq

/-- The confidence-weighted score compared by `findTopRatedDish`:
`averageRating * Math.log(totalReviews + 1)`. -/
noncomputable def dishReviewScore (d : DishReview) : ℝ :=
  (d.averageRating : ℝ) * Real.log ((d.totalReviews : ℝ) + 1)

/-- One step of the reduce in `findTopRatedDish`: the current entry wins
only when its score strictly exceeds the accumulator's. -/
noncomputable def topRatedStep (top current : DishReview) : DishReview :=
  if dishReviewScore top < dishReviewScore current then current else top

/-- The model of `statsService.findTopRatedDish`: the reduce over the list
with no initial value, `none` on the empty list. -/
noncomputable def findTopRatedDish : List DishReview → Option DishReview
  | [] => none
  | d :: ds => some (ds.foldl topRatedStep d)

/-- An entry of the `monthlyTrend` series of the reviews snapshot. -/
structure MonthEntry where
  month : String
  averageRating : ℚ
  totalReviews : ℚ
deriving DecidableEq

/-- Placeholder entry for the out-of-range `getD` reads; the length guard
of `calculateReviewTrend` keeps it unreachable. -/
def dummyMonth : MonthEntry := { month := "", averageRating := 0, totalReviews := 0 }

/-- Result shape of `calculateReviewTrend`. The short-series branch carries
only `direction` and `change`; the main branch carries `direction`,
`ratingChange`, `reviewChange` and `reviewGrowthRate`. A `none` field is a
key absent from the returned object. -/
structure TrendResult where
  direction : String
  change : Option ℚ
  ratingChange : Option ℚ
  reviewChange : Option ℚ
  reviewGrowthRate : Option ℚ
deriving DecidableEq

/-- The main branch of `calculateReviewTrend` on the last two entries of
the series. -/
def reviewTrendOfPair (previous latest : MonthEntry) : TrendResult :=
  let ratingChange := latest.averageRating - previous.averageRating
  let reviewChange := latest.totalReviews - previous.totalReviews
  { direction :=
      if ratingChange > 1 / 10 then "improving"
      else if ratingChange < -(1 / 10) then "declining"
      else "stable"
    change := none
    ratingChange := some (round2 ratingChange)
    reviewChange := some reviewChange
    reviewGrowthRate :=
      some (if previous.totalReviews > 0 then
              round2 (reviewChange / previous.totalReviews * 100)
            else 0) }

/-- The model of `statsService.calculateReviewTrend`: the stable/zero
result for a series shorter than two months, otherwise the comparison of
the last two entries. -/
def calculateReviewTrend (monthlyTrend : List MonthEntry) : TrendResult :=
  if monthlyTrend.length < 2 then
    { direction := "stable", change := some 0, ratingChange := none,
      reviewChange := none, reviewGrowthRate := none }
  else
    reviewTrendOfPair (monthlyTrend.getD (monthlyTrend.length - 2) dummyMonth)
      (monthlyTrend.getD (monthlyTrend.length - 1) dummyMonth)

lemma jsOrQ_some_zero (v : ℚ) : jsOrQ (some v) 0 = v := by
  unfold jsOrQ
  split <;> simp_all

lemma jsOrQ_eq_getD_zero (x : Option ℚ) : jsOrQ x 0 = x.getD 0 := by
  cases x with
  | none => rfl
  | some v => simp [jsOrQ_some_zero]

lemma jsDiv_of_ne_zero {b : ℚ} (a : ℚ) (h : b ≠ 0) : jsDiv a b = some (a / b) := by
  simp [jsDiv, h]

lemma findInventory_nil (dishId : String) : findInventory [] dishId = none := rfl

lemma findInventory_append (inv₁ inv₂ : List InventoryRecord) (dishId : String) :
    findInventory (inv₁ ++ inv₂) dishId =
      (findInventory inv₁ dishId).or (findInventory inv₂ dishId) := by
  simp [findInventory, List.find?_append]

lemma findInventory_dishId {inv : List InventoryRecord} {dishId : String}
    {r : InventoryRecord} (h : findInventory inv dishId = some r) : r.dishId = dishId := by
  have := List.find?_some h
  simpa using this

lemma findInventory_cons (r : InventoryRecord) (rs : List InventoryRecord) (x : String) :
    findInventory (r :: rs) x = if r.dishId == x then some r else findInventory rs x := by
  simp only [findInventory, List.find?]
  cases h : r.dishId == x <;> simp [h]

lemma findDish_cons (d : Dish) (ds : List Dish) (x : String) :
    findDish (d :: ds) x = if d.id == x then some d else findDish ds x := by
  simp only [findDish, List.find?]
  cases h : d.id == x <;> simp [h]

lemma findCategory_cons (c : Category) (cs : List Category) (x : String) :
    findCategory (c :: cs) x = if c.id == x then some c else findCategory cs x := by
  simp only [findCategory, List.find?]
  cases h : c.id == x <;> simp [h]

lemma findInventory_replaceFirst_self {dishId : String} {r' : InventoryRecord}
    (hr : r'.dishId = dishId) :
    ∀ {inv : List InventoryRecord} {r : InventoryRecord},
      findInventory inv dishId = some r →
      findInventory (replaceFirstInventory dishId r' inv) dishId = some r'
  | [], r, h => by simp [findInventory] at h
  | x :: xs, r, h => by
    rw [findInventory_cons] at h
    by_cases hx : (x.dishId == dishId) = true
    · simp [replaceFirstInventory, hx, findInventory_cons, hr]
    · simp only [Bool.not_eq_true] at hx
      rw [hx] at h
      simp only [Bool.false_eq_true, if_false] at h
      simp [replaceFirstInventory, hx, findInventory_cons,
        findInventory_replaceFirst_self hr h]

lemma findInventory_replaceFirst_ne {dishId x : String} {r' : InventoryRecord}
    (hr : r'.dishId = dishId) (hx : x ≠ dishId) :
    ∀ inv : List InventoryRecord,
      findInventory (replaceFirstInventory dishId r' inv) x = findInventory inv x
  | [] => rfl
  | r :: rs => by
    by_cases hd : (r.dishId == dishId) = true
    · have hdq : r.dishId = dishId := by simpa using hd
      have hr'x : (r'.dishId == x) = false := by
        simp only [beq_eq_false_iff_ne, ne_eq, hr]
        exact fun h => hx h.symm
      have hrx : (r.dishId == x) = false := by
        simp only [beq_eq_false_iff_ne, ne_eq, hdq]
        exact fun h => hx h.symm
      simp [replaceFirstInventory, hd, findInventory_cons, hr'x, hrx]
    · simp only [Bool.not_eq_true] at hd
      simp [replaceFirstInventory, hd, findInventory_cons,
        findInventory_replaceFirst_ne hr hx rs]

lemma findDish_updateDishStockField (now dishId : String) (newStock : ℚ) :
    ∀ dishes : List Dish,
      findDish (updateDishStockField now dishId newStock dishes) dishId =
        (findDish dishes dishId).map
          (fun d => { d with stock := newStock, updatedAt := now })
  | [] => rfl
  | d :: ds => by
    by_cases hd : (d.id == dishId) = true
    · have hd2 : (({ d with stock := newStock, updatedAt := now } : Dish).id == dishId)
          = true := by
        simpa using hd
      simp [updateDishStockField, hd, hd2, findDish_cons]
    · simp only [Bool.not_eq_true] at hd
      simp [updateDishStockField, hd, findDish_cons,
        findDish_updateDishStockField now dishId newStock ds]

lemma applyStockExtra_stock (r : InventoryRecord) (extra : StockExtra) :
    (applyStockExtra r extra).stock = r.stock := rfl

lemma applyStockExtra_dishId (r : InventoryRecord) (extra : StockExtra) :
    (applyStockExtra r extra).dishId = r.dishId := rfl

lemma updateDishStock_spec (s : Store) (now dishId : String) (newStock : ℚ)
    (extra : StockExtra) :
    findInventory (updateDishStock s now dishId newStock extra).1.inventory dishId =
      some (updateDishStock s now dishId newStock extra).2 ∧
    (updateDishStock s now dishId newStock extra).2.stock = newStock ∧
    (updateDishStock s now dishId newStock extra).1.dishes =
      updateDishStockField now dishId newStock s.dishes := by
  unfold updateDishStock
  cases h : findInventory s.inventory dishId with
  | none =>
    refine ⟨?_, rfl, rfl⟩
    rw [findInventory_append, h]
    simp [findInventory, List.find?]
  | some r =>
    have hid : r.dishId = dishId := findInventory_dishId h
    have hid' : (applyStockExtra { r with stock := newStock, lastUpdated := now } extra).dishId
        = dishId := by
      rw [applyStockExtra_dishId]
      exact hid
    exact ⟨findInventory_replaceFirst_self hid' h, rfl, rfl⟩

/-- C7: after every `updateStock` call the denormalized `Dish.stock` equals
the `InventoryRecord.stock` for the same dish id — the write-through leaves
the two values equal. -/
theorem claim7_updateStock_writethrough (s : Store) (now dishId : String) (newStock : ℚ)
    (extra : StockExtra) (d : Dish) (r : InventoryRecord)
    (hd : findDish (updateDishStock s now dishId newStock extra).1.dishes dishId = some d)
    (hr : findInventory (updateDishStock s now dishId newStock extra).1.inventory dishId
      = some r) :
    d.stock = r.stock := by
  obtain ⟨hfind, hstock, hdishes⟩ := updateDishStock_spec s now dishId newStock extra
  rw [hfind] at hr
  injection hr with hr'
  rw [hdishes, findDish_updateDishStockField] at hd
  cases h0 : findDish s.dishes dishId with
  | none => rw [h0] at hd; simp at hd
  | some d0 =>
    rw [h0] at hd
    simp only [Option.map_some'] at hd
    injection hd with hd'
    rw [← hd', ← hr', hstock]

def wRec : InventoryRecord :=
  { dishId := "dish_1", stock := 5, alertThreshold := 5, lastUpdated := "t0",
    supplier := "", cost := 0, expiryDate := none, adjustmentReason := none,
    lastAdjustment := none, lastAdjustmentDate := none }

def wDish : Dish :=
  { id := "dish_1", categoryId := "cat_1", name := "Kung Pao", description := "",
    price := 12, status := "on", stock := 5, imageUrl := "", ingredients := [],
    allergens := [], preparationTime := 10, calories := 500, isSpicy := true,
    isVegetarian := false, createdAt := "t0", updatedAt := "t0" }

def wStore : Store := { categories := [], dishes := [wDish], inventory := [wRec] }

/-- Witness for C7 on a one-dish store: both lookups succeed after the
update and the theorem closes the stock equality. -/
theorem claim7_updateStock_writethrough_witness :
    findDish (updateDishStock wStore "t1" "dish_1" 9 noExtra).1.dishes "dish_1" =
      some { wDish with stock := 9, updatedAt := "t1" } ∧
    findInventory (updateDishStock wStore "t1" "dish_1" 9 noExtra).1.inventory "dish_1" =
      some { wRec with stock := 9, lastUpdated := "t1" } ∧
    ({ wDish with stock := 9, updatedAt := "t1" } : Dish).stock =
      ({ wRec with stock := 9, lastUpdated := "t1" } : InventoryRecord).stock := by
  have h1 : findDish (updateDishStock wStore "t1" "dish_1" 9 noExtra).1.dishes "dish_1" =
      some { wDish with stock := 9, updatedAt := "t1" } := by
    simp [updateDishStock, wStore, wRec, wDish, findInventory, findDish, List.find?,
      updateDishStockField, replaceFirstInventory, applyStockExtra, noExtra, overwriteOpt]
  have h2 : findInventory (updateDishStock wStore "t1" "dish_1" 9 noExtra).1.inventory
      "dish_1" = some { wRec with stock := 9, lastUpdated := "t1" } := by
    simp [updateDishStock, wStore, wRec, wDish, findInventory, findDish, List.find?,
      updateDishStockField, replaceFirstInventory, applyStockExtra, noExtra, overwriteOpt]
  exact ⟨h1, h2, claim7_updateStock_writethrough wStore "t1" "dish_1" 9 noExtra _ _ h1 h2⟩

/-- C3: `adjustStock` clamps the adjusted stock at zero — for an existing
record with stock S and any delta D the resulting stock is max(0, S+D) and
is never negative; without a record it fails with a not-found error and
leaves the store untouched. -/
theorem claim3_adjustStock_clamps (s : Store) (now dishId : String) (adjustment : ℚ)
    (reason : String) :
    (getInventoryByDishId s dishId = none →
      adjustStock s now dishId adjustment reason =
        .error (.notFound "Inventory not found for dish")) ∧
    (∀ cur, getInventoryByDishId s dishId = some cur →
      ∃ s' item, adjustStock s now dishId adjustment reason = .ok (s', item) ∧
        findInventory s'.inventory dishId = some item ∧
        item.stock = max 0 (cur.stock + adjustment) ∧
        0 ≤ item.stock) := by
  constructor
  · intro h
    simp [adjustStock, h]
  · intro cur h
    obtain ⟨hfind, hstock, _⟩ := updateDishStock_spec s now dishId
      (max 0 (cur.stock + adjustment))
      { alertThreshold := none, supplier := none, cost := none, expiryDate := none,
        adjustmentReason := some reason, lastAdjustment := some adjustment,
        lastAdjustmentDate := some now }
    refine ⟨_, _, ?_, hfind, hstock, ?_⟩
    · simp [adjustStock, h]
    · rw [hstock]
      exact le_max_left 0 (cur.stock + adjustment)

/-- Witness for C3: adjusting the stock-5 record by -7 clamps at zero, and
an unknown dish id yields the not-found error. -/
theorem claim3_adjustStock_clamps_witness :
    (∃ s' item, adjustStock wStore "t1" "dish_1" (-7) "damaged" = .ok (s', item) ∧
      findInventory s'.inventory "dish_1" = some item ∧
      item.stock = max 0 (wRec.stock + (-7)) ∧
      0 ≤ item.stock) ∧
    adjustStock wStore "t1" "dish_9" 4 "restock" =
      .error (.notFound "Inventory not found for dish") := by
  constructor
  · exact (claim3_adjustStock_clamps wStore "t1" "dish_1" (-7) "damaged").2 wRec
      (by simp [getInventoryByDishId, findInventory, wStore, wRec, List.find?])
  · exact (claim3_adjustStock_clamps wStore "t1" "dish_9" 4 "restock").1
      (by simp [getInventoryByDishId, findInventory, wStore, wRec, List.find?])

lemma updateCategoryList_spec (categoryId now : String) (patch : CategoryPatch) :
    ∀ (cats : List Category) (c : Category), findCategory cats categoryId = some c →
      ∃ cats', updateCategoryList categoryId now patch cats =
          some (cats', applyCategoryPatch c patch categoryId now) ∧
        cats'.map (fun x => x.id) = cats.map (fun x => x.id) ∧
        cats'.length = cats.length ∧
        findCategory cats' categoryId = some (applyCategoryPatch c patch categoryId now)
  | [], c, h => by simp [findCategory] at h
  | c0 :: cs, c, h => by
    rw [findCategory_cons] at h
    by_cases h0 : (c0.id == categoryId) = true
    · rw [if_pos h0] at h
      injection h with hc
      subst hc
      have hq : c0.id = categoryId := by simpa using h0
      refine ⟨applyCategoryPatch c0 patch categoryId now :: cs, ?_, ?_, ?_, ?_⟩
      · rw [updateCategoryList, if_pos h0]
      · simp [applyCategoryPatch, hq]
      · simp
      · rw [findCategory_cons]
        simp [applyCategoryPatch]
    · simp only [Bool.not_eq_true] at h0
      rw [h0] at h
      simp only [Bool.false_eq_true, if_false] at h
      obtain ⟨cs', hup, hids, hlen, hfind⟩ :=
        updateCategoryList_spec categoryId now patch cs c h
      refine ⟨c0 :: cs', ?_, ?_, ?_, ?_⟩
      · simp [updateCategoryList, h0, hup]
      · simp [hids]
      · simp [hlen]
      · rw [findCategory_cons]
        simp [h0, hfind]

lemma filter_categoryId_pos {dishes : List Dish} {categoryId : String}
    (h : ∃ d ∈ dishes, d.categoryId = categoryId) :
    (dishes.filter (fun dish => dish.categoryId == categoryId)).length > 0 := by
  obtain ⟨d, hd, hCat⟩ := h
  have : d ∈ dishes.filter (fun dish => dish.categoryId == categoryId) := by
    rw [List.mem_filter]
    exact ⟨hd, by simp [hCat]⟩
  exact List.length_pos.mpr (List.ne_nil_of_mem this)

lemma filter_categoryId_zero {dishes : List Dish} {categoryId : String}
    (h : ∀ d ∈ dishes, d.categoryId ≠ categoryId) :
    (dishes.filter (fun dish => dish.categoryId == categoryId)).length = 0 := by
  rw [List.length_eq_zero]
  rw [List.filter_eq_nil_iff]
  intro d hd
  simp [h d hd]

/-- C4: `deleteCategory` fails with a conflict error exactly when some dish
still references the category id, regardless of that dish's status; when
no dish references it and the category exists, the category's isActive is
set to false and no record is removed from any collection. -/
theorem claim4_deleteCategory_conflict (s : Store) (now categoryId : String) :
    ((∃ d ∈ s.dishes, d.categoryId = categoryId) ↔
      deleteCategory s now categoryId =
        .error (.conflict "Cannot delete category with existing dishes")) ∧
    ((∀ d ∈ s.dishes, d.categoryId ≠ categoryId) →
      ∀ c, findCategory s.categories categoryId = some c →
      ∃ s', deleteCategory s now categoryId = .ok (s', true) ∧
        (∃ c', findCategory s'.categories categoryId = some c' ∧ c'.isActive = false) ∧
        s'.categories.map (fun x => x.id) = s.categories.map (fun x => x.id) ∧
        s'.categories.length = s.categories.length ∧
        s'.dishes = s.dishes ∧
        s'.inventory = s.inventory) := by
  constructor
  · by_cases hex : ∃ d ∈ s.dishes, d.categoryId = categoryId
    · constructor
      · intro _
        simp [deleteCategory, filter_categoryId_pos hex]
      · intro _
        exact hex
    · push_neg at hex
      constructor
      · intro h
        obtain ⟨d, hd, hc⟩ := h
        exact absurd hc (hex d hd)
      · intro h
        exfalso
        rw [deleteCategory] at h
        simp only [filter_categoryId_zero hex] at h
        simp only [gt_iff_lt, lt_self_iff_false, if_false] at h
        rcases hmatch : updateCategory s now categoryId deactivatePatch with _ | p <;>
          rw [hmatch] at h <;> simp at h
  · intro hnone c hc
    obtain ⟨cats', hup, hids, hlen, hfind⟩ :=
      updateCategoryList_spec categoryId now deactivatePatch s.categories c hc
    refine ⟨{ s with categories := cats' }, ?_, ?_, hids, hlen, rfl, rfl⟩
    · rw [deleteCategory]
      simp only [filter_categoryId_zero hnone]
      simp [updateCategory, hup]
    · exact ⟨applyCategoryPatch c deactivatePatch categoryId now, hfind, rfl⟩

def w4cat : Category :=
  { id := "cat_1", name := "Mains", description := "", sortOrder := 1,
    isActive := true, createdAt := "t0", updatedAt := "t0" }

def w4storeWithDish : Store := { categories := [w4cat], dishes := [wDish], inventory := [] }

def w4storeEmpty : Store := { categories := [w4cat], dishes := [], inventory := [] }

/-- Witness for C4: with a dish referencing cat_1 the delete conflicts,
and without dishes the soft delete flips isActive to false. -/
theorem claim4_deleteCategory_conflict_witness :
    deleteCategory w4storeWithDish "t1" "cat_1" =
      .error (.conflict "Cannot delete category with existing dishes") ∧
    (∃ s', deleteCategory w4storeEmpty "t1" "cat_1" = .ok (s', true) ∧
      (∃ c', findCategory s'.categories "cat_1" = some c' ∧ c'.isActive = false) ∧
      s'.categories.map (fun x => x.id) = w4storeEmpty.categories.map (fun x => x.id) ∧
      s'.categories.length = w4storeEmpty.categories.length ∧
      s'.dishes = w4storeEmpty.dishes ∧
      s'.inventory = w4storeEmpty.inventory) := by
  constructor
  · exact (claim4_deleteCategory_conflict w4storeWithDish "t1" "cat_1").1.mp
      ⟨wDish, by simp [w4storeWithDish], by simp [wDish]⟩
  · exact (claim4_deleteCategory_conflict w4storeEmpty "t1" "cat_1").2
      (by simp [w4storeEmpty]) w4cat
      (by simp [w4storeEmpty, findCategory_cons, w4cat, findCategory])

lemma createInventoryEntry_dishes (s : Store) (now dishId : String) (initialStock : ℚ) :
    (createInventoryEntry s now dishId initialStock).dishes = s.dishes := by
  unfold createInventoryEntry
  cases findInventory s.inventory dishId <;> rfl

lemma createInventoryEntry_categories (s : Store) (now dishId : String) (initialStock : ℚ) :
    (createInventoryEntry s now dishId initialStock).categories = s.categories := by
  unfold createInventoryEntry
  cases findInventory s.inventory dishId <;> rfl

lemma filter_eq_nil_of_findInventory_none {inv : List InventoryRecord} {x : String}
    (h : findInventory inv x = none) :
    inv.filter (fun r => r.dishId == x) = [] := by
  rw [List.filter_eq_nil_iff]
  intro r hr
  have := List.find?_eq_none.mp h r hr
  simpa using this

/-- C5 (amended): `createDish` fails with a validation error whenever the
category id does not resolve; on well-formed input with a resolving
category it appends the new dish, and, provided no inventory record
already exists under the generated id, creates exactly one record keyed by
it holding the requested initial stock (default 0); a pre-existing record
under that id is left untouched. -/
theorem claim5_createDish_inventory (s : Store) (now : String) (data : DishData) :
    (findCategory s.categories data.categoryId = none →
      ∃ msg, createDish s now data = .error (.validation msg)) ∧
    (data.name ≠ "" → data.categoryId ≠ "" → data.price ≠ none →
      ∀ cat, findCategory s.categories data.categoryId = some cat →
      ∃ s' newDish, createDish s now data = .ok (s', newDish) ∧
        newDish.id = generateId "dish_" (s.dishes.map (fun d => d.id)) ∧
        newDish ∈ s'.dishes ∧
        newDish.stock = data.stock.getD 0 ∧
        (findInventory s.inventory newDish.id = none →
          (s'.inventory.filter (fun r => r.dishId == newDish.id)).length = 1 ∧
          ∃ r, findInventory s'.inventory newDish.id = some r ∧
            r.stock = data.stock.getD 0) ∧
        (∀ r0, findInventory s.inventory newDish.id = some r0 →
          s'.inventory = s.inventory)) := by
  constructor
  · intro hnone
    by_cases hv : data.name = "" ∨ data.categoryId = "" ∨ data.price = none
    · exact ⟨"Missing required fields", by rw [createDish, if_pos hv]⟩
    · refine ⟨"Category not found", ?_⟩
      rw [createDish, if_neg hv, hnone]
  · intro hname hcat hprice cat hfound
    have hv : ¬(data.name = "" ∨ data.categoryId = "" ∨ data.price = none) := by
      push_neg
      exact ⟨hname, hcat, hprice⟩
    rw [createDish, if_neg hv, hfound]
    simp only
    refine ⟨_, _, rfl, rfl, ?_, ?_, ?_, ?_⟩
    · rw [createInventoryEntry_dishes]
      simp
    · exact jsOrQ_eq_getD_zero data.stock
    · intro hnone
      rw [createInventoryEntry]
      simp only [hnone]
      constructor
      · rw [List.filter_append,
          filter_eq_nil_of_findInventory_none hnone]
        simp [List.filter]
      · rw [findInventory_append, hnone, Option.none_or, findInventory_cons,
          if_pos (by simp)]
        exact ⟨_, rfl, jsOrQ_eq_getD_zero data.stock⟩
    · intro r0 hsome
      rw [createInventoryEntry]
      simp only [hsome]

def w5data : DishData :=
  { name := "Noodles", categoryId := "cat_1", description := none, price := some 10,
    status := none, stock := some 5, imageUrl := none, ingredients := none,
    allergens := none, preparationTime := none, calories := none, isSpicy := none,
    isVegetarian := none }

/-- Witness for C5 on a clean store: the dish is created as dish_1 and a
single inventory record with the requested stock 5 appears. -/
theorem claim5_createDish_inventory_witness :
    ∃ s' newDish, createDish w4storeEmpty "t1" w5data = .ok (s', newDish) ∧
      newDish.id = generateId "dish_" (w4storeEmpty.dishes.map (fun d => d.id)) ∧
      newDish ∈ s'.dishes ∧
      newDish.stock = w5data.stock.getD 0 ∧
      (findInventory w4storeEmpty.inventory newDish.id = none →
        (s'.inventory.filter (fun r => r.dishId == newDish.id)).length = 1 ∧
        ∃ r, findInventory s'.inventory newDish.id = some r ∧
          r.stock = w5data.stock.getD 0) ∧
      (∀ r0, findInventory w4storeEmpty.inventory newDish.id = some r0 →
        s'.inventory = w4storeEmpty.inventory) :=
  (claim5_createDish_inventory w4storeEmpty "t1" w5data).2
    (by decide) (by decide) (by decide) w4cat (by decide)

def w5orphanRec : InventoryRecord :=
  { dishId := "dish_1", stock := 99, alertThreshold := 5, lastUpdated := "t0",
    supplier := "", cost := 0, expiryDate := none, adjustmentReason := none,
    lastAdjustment := none, lastAdjustmentDate := none }

def w5orphanStore : Store :=
  { categories := [w4cat], dishes := [], inventory := [w5orphanRec] }

/-- Counterexample to C5 as stated: on a store holding a stale inventory
record under the id the generator will hand out, a successful createDish
requesting stock 5 leaves the record for the new dish id at stock 99 — no
record with the requested initial stock is created. -/
theorem claim5_createDish_inventory_counterexample :
    (createDish w5orphanStore "t1" w5data).toOption.map
        (fun p => (p.2.id, (findInventory p.1.inventory p.2.id).map (fun r => r.stock)))
      = some ("dish_1", some 99) ∧
    w5data.stock = some 5 ∧ (99 : ℚ) ≠ 5 := by
  refine ⟨?_, rfl, by norm_num⟩
  decide

/-- C2 (amended): `getLowStockDishes` returns exactly the inventory items
whose stock is at most `customThreshold || alertThreshold` — the per-item
threshold is used when no custom threshold is supplied and also when the
supplied custom threshold is 0, since 0 is falsy — each enriched with the
dish join, sorted ascending by stock, boundary included. -/
theorem claim2_lowStock_threshold (s : Store) (customThreshold : Option ℚ) :
    List.Sorted stockLe (getLowStockDishes s customThreshold) ∧
    ∀ e, e ∈ getLowStockDishes s customThreshold ↔
      ∃ item ∈ s.inventory, item.stock ≤ jsOrQ customThreshold item.alertThreshold ∧
        e = enrichInventoryItem s.dishes item := by
  constructor
  · exact List.sorted_insertionSort stockLe _
  · intro e
    rw [getLowStockDishes, List.Perm.mem_iff (List.perm_insertionSort stockLe _)]
    simp only [List.mem_map, List.mem_filter, decide_eq_true_eq]
    constructor
    · rintro ⟨item, ⟨hmem, hle⟩, rfl⟩
      exact ⟨item, hmem, hle, rfl⟩
    · rintro ⟨item, hmem, hle, rfl⟩
      exact ⟨item, ⟨hmem, hle⟩, rfl⟩

def w2rec : InventoryRecord :=
  { dishId := "dish_1", stock := 3, alertThreshold := 5, lastUpdated := "t0",
    supplier := "", cost := 0, expiryDate := none, adjustmentReason := none,
    lastAdjustment := none, lastAdjustmentDate := none }

def w2store : Store := { categories := [], dishes := [], inventory := [w2rec] }

/-- Counterexample to C2 as stated: with a supplied custom threshold of 0,
an item with stock 3 is still returned, because the falsy 0 falls back to
the per-item alertThreshold 5 — the result is not the set of items with
stock at most the supplied threshold 0. -/
theorem claim2_lowStock_threshold_counterexample :
    (getLowStockDishes w2store (some 0)).map (fun e => e.item.stock) = [3] ∧
    ¬ ((3 : ℚ) ≤ 0) := by
  constructor
  · decide
  · norm_num

/-- Invariant established by one synchronization run: every dish has a
first-matching inventory record carrying exactly the dish's stock. -/
def inventorySyncedWith (dishes : List Dish) (inv : List InventoryRecord) : Prop :=
  ∀ d ∈ dishes, ∃ r, findInventory inv d.id = some r ∧ r.stock = d.stock

lemma syncStep_of_synced {now : String} {acc : SyncResult} {d : Dish}
    (h : ∃ r, findInventory acc.inventory d.id = some r ∧ r.stock = d.stock) :
    syncStep now acc d = acc := by
  obtain ⟨r, hfind, hstock⟩ := h
  rw [syncStep, hfind]
  simp [hstock]

lemma foldl_syncStep_of_synced (now : String) :
    ∀ (dishes : List Dish) (acc : SyncResult),
      inventorySyncedWith dishes acc.inventory →
      dishes.foldl (syncStep now) acc = acc
  | [], acc, _ => rfl
  | d :: ds, acc, h => by
    rw [List.foldl_cons, syncStep_of_synced (h d (List.mem_cons_self d ds))]
    exact foldl_syncStep_of_synced now ds acc (fun d' hd' => h d' (List.mem_cons_of_mem d hd'))

lemma syncStep_establishes (now : String) (acc : SyncResult) (d : Dish) :
    ∃ r, findInventory (syncStep now acc d).inventory d.id = some r ∧ r.stock = d.stock := by
  cases hfind : findInventory acc.inventory d.id with
  | none =>
    simp only [syncStep, hfind]
    have hfound : findInventory (acc.inventory ++
        [{ dishId := d.id, stock := jsOrQ (some d.stock) 0, alertThreshold := 5,
           lastUpdated := now, supplier := "", cost := 0, expiryDate := none,
           adjustmentReason := none, lastAdjustment := none,
           lastAdjustmentDate := none }]) d.id =
        some { dishId := d.id, stock := jsOrQ (some d.stock) 0, alertThreshold := 5,
               lastUpdated := now, supplier := "", cost := 0, expiryDate := none,
               adjustmentReason := none, lastAdjustment := none,
               lastAdjustmentDate := none } := by
      rw [findInventory_append, hfind, Option.none_or, findInventory_cons, if_pos (by simp)]
    exact ⟨_, hfound, jsOrQ_some_zero d.stock⟩
  | some r =>
    simp only [syncStep, hfind]
    by_cases hs : r.stock ≠ d.stock
    · rw [if_pos hs]
      have hid0 : r.dishId = d.id := findInventory_dishId hfind
      have hid : ({ r with stock := d.stock, lastUpdated := now } : InventoryRecord).dishId
          = d.id := hid0
      exact ⟨_, findInventory_replaceFirst_self hid hfind, rfl⟩
    · rw [if_neg hs]
      push_neg at hs
      exact ⟨r, hfind, hs⟩

lemma syncStep_preserves_other {now : String} {acc : SyncResult} {d : Dish} {x : String}
    (hx : x ≠ d.id) :
    findInventory (syncStep now acc d).inventory x = findInventory acc.inventory x := by
  cases hfind : findInventory acc.inventory d.id with
  | none =>
    simp only [syncStep, hfind]
    rw [findInventory_append]
    have hne : (d.id == x) = false := by
      rw [beq_eq_false_iff_ne]
      exact fun h => hx h.symm
    simp [findInventory_cons, hne, findInventory]
  | some r =>
    simp only [syncStep, hfind]
    by_cases hs : r.stock ≠ d.stock
    · rw [if_pos hs]
      have hid0 : r.dishId = d.id := findInventory_dishId hfind
      have hid : ({ r with stock := d.stock, lastUpdated := now } : InventoryRecord).dishId
          = d.id := hid0
      exact findInventory_replaceFirst_ne hid hx _
    · rw [if_neg hs]

lemma foldl_syncStep_preserves_other (now : String) :
    ∀ (dishes : List Dish) (acc : SyncResult) (x : String),
      (∀ d ∈ dishes, x ≠ d.id) →
      findInventory (dishes.foldl (syncStep now) acc).inventory x =
        findInventory acc.inventory x
  | [], _, _, _ => rfl
  | d :: ds, acc, x, h => by
    rw [List.foldl_cons,
      foldl_syncStep_preserves_other now ds (syncStep now acc d) x
        (fun d' hd' => h d' (List.mem_cons_of_mem d hd')),
      syncStep_preserves_other (h d (List.mem_cons_self d ds))]

lemma foldl_syncStep_establishes (now : String) :
    ∀ (dishes : List Dish) (acc : SyncResult),
      (dishes.map (fun d => d.id)).Nodup →
      inventorySyncedWith dishes (dishes.foldl (syncStep now) acc).inventory
  | [], _, _ => by intro d hd; simp at hd
  | d :: ds, acc, hnodup => by
    rw [List.map_cons, List.nodup_cons] at hnodup
    obtain ⟨hd_notin, hds_nodup⟩ := hnodup
    intro d' hd'
    rw [List.foldl_cons]
    rcases List.mem_cons.mp hd' with rfl | hmem
    · obtain ⟨r, hr, hstock⟩ := syncStep_establishes now acc d'
      refine ⟨r, ?_, hstock⟩
      rw [foldl_syncStep_preserves_other now ds (syncStep now acc d') d'.id ?_, hr]
      intro d2 hd2 hEq
      exact hd_notin (hEq ▸ List.mem_map_of_mem (fun d => d.id) hd2)
    · exact foldl_syncStep_establishes now ds (syncStep now acc d) hds_nodup d' hmem

/-- C8 (amended): when the dishes carry pairwise-distinct ids, running
`synchronizeInventory` twice in a row with no intervening change yields
created = 0 and updated = 0 on the second run — after one run every dish
has a record matching its stock, so the operation is idempotent. -/
theorem claim8_synchronize_idempotent (now now' : String) (dishes : List Dish)
    (inventory : List InventoryRecord)
    (hnodup : (dishes.map (fun d => d.id)).Nodup) :
    (synchronizeInventory now' dishes
        (synchronizeInventory now dishes inventory).inventory).created = 0 ∧
    (synchronizeInventory now' dishes
        (synchronizeInventory now dishes inventory).inventory).updated = 0 := by
  have hsynced : inventorySyncedWith dishes
      (synchronizeInventory now dishes inventory).inventory :=
    foldl_syncStep_establishes now dishes _ hnodup
  have hrun2 : synchronizeInventory now' dishes
      (synchronizeInventory now dishes inventory).inventory =
      { inventory := (synchronizeInventory now dishes inventory).inventory,
        created := 0, updated := 0 } :=
    foldl_syncStep_of_synced now' dishes _ hsynced
  rw [hrun2]
  exact ⟨rfl, rfl⟩

def w8dish : Dish := { wDish with stock := 20 }

/-- Witness for C8: one dish with no inventory record — the first run
creates the record, the second run reports zero created and updated. -/
theorem claim8_synchronize_idempotent_witness :
    ([w8dish].map (fun d => d.id)).Nodup ∧
    (synchronizeInventory "t1" [w8dish]
        (synchronizeInventory "t0" [w8dish] []).inventory).created = 0 ∧
    (synchronizeInventory "t1" [w8dish]
        (synchronizeInventory "t0" [w8dish] []).inventory).updated = 0 :=
  ⟨by decide, claim8_synchronize_idempotent "t0" "t1" [w8dish] [] (by decide)⟩

def w8dupA : Dish := { wDish with name := "A", stock := 1 }

def w8dupB : Dish := { wDish with name := "B", stock := 2 }

/-- Counterexample to C8 as stated: two dish entries sharing the id dish_1
with stocks 1 and 2 keep flipping the shared record, so the second run
still reports two updates instead of zero. -/
theorem claim8_synchronize_idempotent_counterexample :
    (synchronizeInventory "t1" [w8dupA, w8dupB]
        (synchronizeInventory "t0" [w8dupA, w8dupB] []).inventory).created = 0 ∧
    (synchronizeInventory "t1" [w8dupA, w8dupB]
        (synchronizeInventory "t0" [w8dupA, w8dupB] []).inventory).updated = 2 := by
  constructor <;> decide

lemma computeGrowthRate_pos {yesterday : ℚ} (today : ℚ) (h : yesterday > 0) :
    computeGrowthRate today yesterday =
      some (round2 ((today - yesterday) / yesterday * 100)) := by
  rw [computeGrowthRate, if_pos h, jsDiv_of_ne_zero _ (ne_of_gt h)]
  rfl

lemma computeGrowthRate_zero (today : ℚ) : computeGrowthRate today 0 = some 0 := by
  rw [computeGrowthRate, if_neg]
  norm_num

lemma computeGrowthRate_total (today yesterday : ℚ) :
    ∃ q, computeGrowthRate today yesterday = some q := by
  by_cases h : yesterday > 0
  · exact ⟨_, computeGrowthRate_pos today h⟩
  · exact ⟨0, by rw [computeGrowthRate, if_neg h]⟩

/-- C6: the revenue growth rate is the percentage change against yesterday
rounded to two decimals when yesterday's revenue is positive and exactly 0
when it is 0, and likewise for the order growth rate on order counts; both
are always finite, never the NaN or Infinity of a zero division. -/
theorem claim6_growth_rates (dishes : List Dish) (os : OrderStats) :
    (os.yesterdayRevenue > 0 →
      (getOrderStatistics dishes os).metrics.revenueGrowthRate =
        some (round2 ((os.todayRevenue - os.yesterdayRevenue) / os.yesterdayRevenue * 100))) ∧
    (os.yesterdayRevenue = 0 →
      (getOrderStatistics dishes os).metrics.revenueGrowthRate = some 0) ∧
    (os.yesterdayOrders > 0 →
      (getOrderStatistics dishes os).metrics.orderGrowthRate =
        some (round2 ((os.todayOrders - os.yesterdayOrders) / os.yesterdayOrders * 100))) ∧
    (os.yesterdayOrders = 0 →
      (getOrderStatistics dishes os).metrics.orderGrowthRate = some 0) ∧
    (∃ q, (getOrderStatistics dishes os).metrics.revenueGrowthRate = some q) ∧
    (∃ q, (getOrderStatistics dishes os).metrics.orderGrowthRate = some q) := by
  refine ⟨?_, ?_, ?_, ?_, ?_, ?_⟩
  · intro h
    exact computeGrowthRate_pos os.todayRevenue h
  · intro h
    show computeGrowthRate os.todayRevenue os.yesterdayRevenue = some 0
    rw [h]
    exact computeGrowthRate_zero os.todayRevenue
  · intro h
    exact computeGrowthRate_pos os.todayOrders h
  · intro h
    show computeGrowthRate os.todayOrders os.yesterdayOrders = some 0
    rw [h]
    exact computeGrowthRate_zero os.todayOrders
  · exact computeGrowthRate_total os.todayRevenue os.yesterdayRevenue
  · exact computeGrowthRate_total os.todayOrders os.yesterdayOrders

def w6os : OrderStats :=
  { todayRevenue := 150, yesterdayRevenue := 100, todayOrders := 30,
    yesterdayOrders := 0, averageOrderValue := 5, topDishes := [], peakHours := [] }

/-- Witness for C6: revenue up from 100 to 150 yields growth 50, and with
zero orders yesterday the order growth rate is exactly 0. -/
theorem claim6_growth_rates_witness :
    (getOrderStatistics [] w6os).metrics.revenueGrowthRate = some 50 ∧
    (getOrderStatistics [] w6os).metrics.orderGrowthRate = some 0 := by
  constructor
  · have h := (claim6_growth_rates [] w6os).1 (by norm_num [w6os])
    rw [h]
    norm_num [w6os, round2]
  · exact (claim6_growth_rates [] w6os).2.2.2.1 (by norm_num [w6os])

/-- C1: for a promotion found by `getPromotionAnalytics`, the reported roi
is `(totalRevenue - discountGiven) / discountGiven * 100` rounded to two
decimals whenever totalRevenue is positive (the denominator being
discountGiven even though the guard tests totalRevenue; at discountGiven 0
the JavaScript value is the non-finite Infinity, outside the rational
formula), and exactly 0 when totalRevenue is 0. -/
theorem claim1_promotion_roi (ps : PromotionStats) (dishes : List Dish)
    (promotionId : String) (p : Promotion) (act : Bool)
    (hfind : findPromotion ps promotionId = some (p, act)) :
    ∃ a, getPromotionAnalytics ps dishes promotionId = some a ∧
      (p.totalRevenue > 0 → p.discountGiven ≠ 0 →
        a.roi = some (round2 ((p.totalRevenue - p.discountGiven) / p.discountGiven * 100))) ∧
      (p.totalRevenue = 0 → a.roi = some 0) := by
  refine ⟨mkPromotionAnalytics dishes p act, ?_, ?_, ?_⟩
  · rw [getPromotionAnalytics, hfind]
    rfl
  · intro hpos hne
    show (if p.totalRevenue > 0 then
        (jsDiv (p.totalRevenue - p.discountGiven) p.discountGiven).map
          (fun q => round2 (q * 100))
      else some 0) = _
    rw [if_pos hpos, jsDiv_of_ne_zero _ hne]
    rfl
  · intro h0
    show (if p.totalRevenue > 0 then
        (jsDiv (p.totalRevenue - p.discountGiven) p.discountGiven).map
          (fun q => round2 (q * 100))
      else some 0) = some 0
    rw [if_neg]
    rw [h0]
    norm_num

def w1promo : Promotion :=
  { id := "promo_1", applicableDishes := [], totalOrders := 50, totalRevenue := 300,
    discountGiven := 100, conversionRate := 1, startDate := 0, endDate := 0 }

def w1stats : PromotionStats :=
  { activePromotions := [w1promo], completedPromotions := [],
    overallStats := { totalPromotionalOrders := 0, totalPromotionalRevenue := 0,
                      totalDiscountGiven := 0, averageConversionRate := 0 } }

/-- Witness for C1: revenue 300 against discount 100 reports an roi of
exactly 200 percent. -/
theorem claim1_promotion_roi_witness :
    ∃ a, getPromotionAnalytics w1stats [] "promo_1" = some a ∧ a.roi = some 200 := by
  obtain ⟨a, ha, hroi, _⟩ :=
    claim1_promotion_roi w1stats [] "promo_1" w1promo true (by decide)
  refine ⟨a, ha, ?_⟩
  rw [hroi (by norm_num [w1promo]) (by norm_num [w1promo])]
  norm_num [w1promo, round2]

lemma topRatedStep_mem (top current : DishReview) :
    topRatedStep top current = top ∨ topRatedStep top current = current := by
  unfold topRatedStep
  by_cases h : dishReviewScore top < dishReviewScore current
  · right
    rw [if_pos h]
  · left
    rw [if_neg h]

lemma le_topRatedStep_left (top current : DishReview) :
    dishReviewScore top ≤ dishReviewScore (topRatedStep top current) := by
  unfold topRatedStep
  by_cases h : dishReviewScore top < dishReviewScore current
  · rw [if_pos h]
    exact le_of_lt h
  · rw [if_neg h]

lemma le_topRatedStep_right (top current : DishReview) :
    dishReviewScore current ≤ dishReviewScore (topRatedStep top current) := by
  unfold topRatedStep
  by_cases h : dishReviewScore top < dishReviewScore current
  · rw [if_pos h]
  · rw [if_neg h]
    exact le_of_not_lt h

lemma foldl_topRatedStep_mem :
    ∀ (ds : List DishReview) (d : DishReview), ds.foldl topRatedStep d ∈ d :: ds
  | [], d => List.mem_cons_self d []
  | x :: xs, d => by
    rw [List.foldl_cons]
    have hrec := foldl_topRatedStep_mem xs (topRatedStep d x)
    rcases List.mem_cons.mp hrec with hEq | hmem
    · rcases topRatedStep_mem d x with hs | hs
      · rw [hEq, hs]
        exact List.mem_cons_self d (x :: xs)
      · rw [hEq, hs]
        exact List.mem_cons_of_mem d (List.mem_cons_self x xs)
    · exact List.mem_cons_of_mem d (List.mem_cons_of_mem x hmem)

lemma foldl_topRatedStep_ge :
    ∀ (ds : List DishReview) (d x : DishReview), x ∈ d :: ds →
      dishReviewScore x ≤ dishReviewScore (ds.foldl topRatedStep d)
  | [], d, x, hx => by
    rcases List.mem_cons.mp hx with rfl | hmem
    · exact le_refl _
    · simp at hmem
  | y :: ys, d, x, hx => by
    rw [List.foldl_cons]
    rcases List.mem_cons.mp hx with rfl | hx'
    · exact le_trans (le_topRatedStep_left x y)
        (foldl_topRatedStep_ge ys (topRatedStep x y) _
          (List.mem_cons_self _ ys))
    · rcases List.mem_cons.mp hx' with rfl | hx''
      · exact le_trans (le_topRatedStep_right d x)
          (foldl_topRatedStep_ge ys (topRatedStep d x) _
            (List.mem_cons_self _ ys))
      · exact foldl_topRatedStep_ge ys (topRatedStep d y) x
          (List.mem_cons_of_mem _ hx'')

def reviewDishA : DishReview := { dishId := "dish_A", averageRating := 49 / 10, totalReviews := 1 }

def reviewDishB : DishReview := { dishId := "dish_B", averageRating := 9 / 2, totalReviews := 200 }

lemma reviewScoreA_lt_reviewScoreB :
    dishReviewScore reviewDishA < dishReviewScore reviewDishB := by
  unfold dishReviewScore reviewDishA reviewDishB
  push_cast
  norm_num
  have hA : Real.log 2 < 0.6931471808 := Real.log_two_lt_d9
  have hB : (2 : ℝ) < Real.log 201 := by
    have h1 : Real.exp 1 < 2.7182818286 := Real.exp_one_lt_d9
    have h0 : (0 : ℝ) < Real.exp 1 := Real.exp_pos 1
    have h2 : Real.exp 2 = Real.exp 1 * Real.exp 1 := by
      rw [← Real.exp_add]
      norm_num
    have h : Real.exp 2 < 201 := by nlinarith
    exact (Real.lt_log_iff_exp_lt (by norm_num)).mpr h
  have hA0 : (0 : ℝ) ≤ Real.log 2 := Real.log_nonneg (by norm_num)
  nlinarith

/-- C9: `findTopRatedDish` returns an entry whose confidence-weighted score
`averageRating * ln(totalReviews + 1)` is maximal over any non-empty list;
in particular over A(4.9, 1 review) and B(4.5, 200 reviews) it selects B. -/
theorem claim9_top_rated_dish :
    (∀ l : List DishReview, l ≠ [] →
      ∃ top, findTopRatedDish l = some top ∧ top ∈ l ∧
        ∀ d ∈ l, dishReviewScore d ≤ dishReviewScore top) ∧
    findTopRatedDish [reviewDishA, reviewDishB] = some reviewDishB := by
  constructor
  · intro l hl
    cases l with
    | nil => exact absurd rfl hl
    | cons d ds =>
      exact ⟨ds.foldl topRatedStep d, rfl, foldl_topRatedStep_mem ds d,
        fun x hx => foldl_topRatedStep_ge ds d x hx⟩
  · show some ([reviewDishB].foldl topRatedStep reviewDishA) = some reviewDishB
    rw [List.foldl_cons, List.foldl_nil, topRatedStep,
      if_pos reviewScoreA_lt_reviewScoreB]

/-- Witness for C9: the maximality statement applied to the concrete
two-entry list. -/
theorem claim9_top_rated_dish_witness :
    ∃ top, findTopRatedDish [reviewDishA, reviewDishB] = some top ∧
      top ∈ [reviewDishA, reviewDishB] ∧
      ∀ d ∈ [reviewDishA, reviewDishB],
        dishReviewScore d ≤ dishReviewScore top :=
  claim9_top_rated_dish.1 [reviewDishA, reviewDishB] (by simp)

lemma drop_last_two :
    ∀ (l : List MonthEntry), 2 ≤ l.length →
      l.drop (l.length - 2) =
        [l.getD (l.length - 2) dummyMonth, l.getD (l.length - 1) dummyMonth]
  | [], h => by simp at h
  | [x], h => by simp at h
  | [x, y], _ => rfl
  | x :: y :: z :: t', _ => by
    have htl : 2 ≤ (y :: z :: t').length := by simp
    have hlen : (x :: y :: z :: t').length - 2 = ((y :: z :: t').length - 2) + 1 := by
      simp only [List.length_cons]
      omega
    have hlen1 : (x :: y :: z :: t').length - 1 = ((y :: z :: t').length - 1) + 1 := by
      simp only [List.length_cons]
      omega
    rw [hlen, hlen1, List.drop_succ_cons, List.getD_cons_succ, List.getD_cons_succ]
    exact drop_last_two (y :: z :: t') htl

/-- C10: a monthly series shorter than two entries yields the stable/zero
result with no out-of-bounds access, and for longer series the result is
determined by the last two entries alone. -/
theorem claim10_review_trend (l l' : List MonthEntry) :
    (l.length < 2 → calculateReviewTrend l =
      { direction := "stable", change := some 0, ratingChange := none,
        reviewChange := none, reviewGrowthRate := none }) ∧
    (2 ≤ l.length → 2 ≤ l'.length →
      l.drop (l.length - 2) = l'.drop (l'.length - 2) →
      calculateReviewTrend l = calculateReviewTrend l') := by
  constructor
  · intro h
    rw [calculateReviewTrend, if_pos h]
  · intro hl hl' hdrop
    rw [drop_last_two l hl, drop_last_two l' hl'] at hdrop
    injection hdrop with h1 h2
    injection h2 with h2 _
    rw [calculateReviewTrend, if_neg (by omega), calculateReviewTrend, if_neg (by omega),
      h1, h2]

def w10m1 : MonthEntry := { month := "m1", averageRating := 4, totalReviews := 10 }

def w10m2 : MonthEntry := { month := "m2", averageRating := 5, totalReviews := 20 }

def w10m3 : MonthEntry := { month := "m3", averageRating := 3, totalReviews := 30 }

/-- Witness for C10: the empty series yields the stable/zero result, and a
three-month series agrees with the series of just its last two months. -/
theorem claim10_review_trend_witness :
    calculateReviewTrend [] =
      { direction := "stable", change := some 0, ratingChange := none,
        reviewChange := none, reviewGrowthRate := none } ∧
    calculateReviewTrend [w10m1, w10m2, w10m3] = calculateReviewTrend [w10m2, w10m3] :=
  ⟨(claim10_review_trend [] []).1 (by norm_num),
   (claim10_review_trend [w10m1, w10m2, w10m3] [w10m2, w10m3]).2
     (by decide) (by decide) (by rfl)⟩
